import Mathlib

/-!
Verification of the Legion Spack package (`var/spack/repos/builtin/packages/legion/package.py`).

The file shallowly embeds the package's variant/conflict declarations and its
`cmake_args` translator as Lean definitions, then proves the specification
claims about them.
-/

instance {ε α : Type} [DecidableEq ε] [DecidableEq α] : DecidableEq (Except ε α) := fun x y =>
  match x, y with
  | Except.ok a, Except.ok b =>
      if h : a = b then Decidable.isTrue (by rw [h])
      else Decidable.isFalse (by intro hc; injection hc with h2; exact h h2)
  | Except.ok _, Except.error _ => Decidable.isFalse (by intro hc; simp at hc)
  | Except.error _, Except.ok _ => Decidable.isFalse (by intro hc; simp at hc)
  | Except.error e, Except.error f =>
      if h : e = f then Decidable.isTrue (by rw [h])
      else Decidable.isFalse (by intro hc; injection hc with h2; exact h h2)

namespace Legion

/-- The `network` variant: values `('gasnet', 'mpi', 'none')` (package.py line 71). -/
inductive Network where
  | gasnet
  | mpi
  | nonet
deriving DecidableEq, Repr

/-- The `conduit` variant: values `('aries', 'ibv', 'udp', 'mpi', 'ucx', 'none')` (line 98). -/
inductive Conduit where
  | aries
  | ibv
  | udp
  | mpi
  | ucx
  | nonec
deriving DecidableEq, Repr

/-- The string value of a `conduit` selection, as interpolated at line 211. -/
def conduitValue : Conduit → String
  | Conduit.aries => "aries"
  | Conduit.ibv => "ibv"
  | Conduit.udp => "udp"
  | Conduit.mpi => "mpi"
  | Conduit.ucx => "ucx"
  | Conduit.nonec => "none"

/-- The `output_level` variant: values at line 131. -/
inductive OutputLevel where
  | spew
  | debug
  | info
  | print
  | warning
  | error
  | fatal
  | nonel
deriving DecidableEq, Repr

/-- The string value of an `output_level` selection (lowercase, as declared at line 131). -/
def outputLevelValue : OutputLevel → String
  | OutputLevel.spew => "spew"
  | OutputLevel.debug => "debug"
  | OutputLevel.info => "info"
  | OutputLevel.print => "print"
  | OutputLevel.warning => "warning"
  | OutputLevel.error => "error"
  | OutputLevel.fatal => "fatal"
  | OutputLevel.nonel => "none"

/-- The `cuda_arch` variant: values `('60', '70', '75', '80')` (line 50). -/
inductive CudaArch where
  | a60
  | a70
  | a75
  | a80
deriving DecidableEq, Repr

/-- The string value of a `cuda_arch` selection, as interpolated at line 250. -/
def cudaArchValue : CudaArch → String
  | CudaArch.a60 => "60"
  | CudaArch.a70 => "70"
  | CudaArch.a75 => "75"
  | CudaArch.a80 => "80"

/-- One fully resolved assignment of values to every variant of the Legion
package (lines 71-193), together with the `build_type` variant inherited from
`CMakePackage` (read at line 310, a plain string here) and the
`kokkos_cxx` compiler path exposed by the concretized `kokkos` dependency
(read at line 274).  Python `int`-valued variants (`max_dims`, `max_fields`)
are `Int`. -/
structure LegionSpec where
  network : Network
  gasnet_root : String
  conduit : Conduit
  gasnet_debug : Bool
  shared : Bool
  bounds_checks : Bool
  privilege_checks : Bool
  enable_tls : Bool
  output_level : OutputLevel
  spy : Bool
  cuda : Bool
  cuda_hijack : Bool
  cuda_arch : CudaArch
  cuda_unsupported_compiler : Bool
  fortran : Bool
  hdf5 : Bool
  hwloc : Bool
  kokkos : Bool
  bindings : Bool
  libdl : Bool
  openmp : Bool
  papi : Bool
  python : Bool
  zlib : Bool
  redop_complex : Bool
  max_dims : Int
  max_fields : Int
  native : Bool
  build_type : String
  kokkos_cxx : String
deriving DecidableEq, Repr

/-- The spec with every variant at its declared default (lines 71-193;
`build_type` defaults to `Release` in `CMakePackage`). -/
def defaultSpec : LegionSpec where
  network := Network.nonet
  gasnet_root := "none"
  conduit := Conduit.nonec
  gasnet_debug := false
  shared := false
  bounds_checks := false
  privilege_checks := false
  enable_tls := false
  output_level := OutputLevel.warning
  spy := false
  cuda := false
  cuda_hijack := false
  cuda_arch := CudaArch.a70
  cuda_unsupported_compiler := false
  fortran := false
  hdf5 := false
  hwloc := false
  kokkos := false
  bindings := false
  libdl := true
  openmp := false
  papi := false
  python := false
  zlib := true
  redop_complex := false
  max_dims := 3
  max_fields := 512
  native := false
  build_type := "Release"
  kokkos_cxx := ""

/-- The declared conflict rules of the package, checked by the framework before
`cmake_args` runs (the Phase-1 conflict gate).  Returns the message of the first
rule, in declaration order, whose predicate holds, or `none`:
* line 96: `conflicts('gasnet_root', when="network=mpi")` — a non-default
  (non-`"none"`) `gasnet_root` together with `network=mpi`;
* lines 103-104: `conduit=none` together with `network=gasnet`;
* lines 106-112: each concrete conduit together with `network=mpi` and with
  `network=none`;
* lines 116-117: `+gasnet_debug` together with `network=mpi` / `network=none`;
* line 152: `+cuda_hijack` together with `~cuda`.
Note no conflict is declared between `gasnet_root` and `network=none`. -/
def checkConflicts (s : LegionSpec) : Option String :=
  if s.gasnet_root ≠ "none" ∧ s.network = Network.mpi then
    some "gasnet_root conflicts with network=mpi"
  else if s.conduit = Conduit.nonec ∧ s.network = Network.gasnet then
    some "a conduit must be selected when 'network=gasnet'"
  else if s.conduit ≠ Conduit.nonec ∧ s.network = Network.mpi then
    some "conduit attribute requires 'network=gasnet'."
  else if s.conduit ≠ Conduit.nonec ∧ s.network = Network.nonet then
    some "conduit attribute requires 'network=gasnet'."
  else if s.gasnet_debug ∧ s.network = Network.mpi then
    some "+gasnet_debug conflicts with network=mpi"
  else if s.gasnet_debug ∧ s.network = Network.nonet then
    some "+gasnet_debug conflicts with network=none"
  else if s.cuda_hijack ∧ ¬ s.cuda then
    some "+cuda_hijack conflicts with ~cuda"
  else
    none

/-- One pass of the `while maxfields & maxfields - 1:` loop body at lines
327-328, iterated with explicit fuel (the loop clears the lowest set bit each
iteration, so the value strictly decreases and fuel equal to the starting value
always suffices; `clearLowAux_eq` below establishes what it computes). -/
def clearLowAux : Nat → Nat → Nat
  | 0, n => n
  | fuel + 1, n => if n &&& (n - 1) = 0 then n else clearLowAux fuel (n &&& (n - 1))

/-- The `max_fields` normalization at lines 321-329: substitute 512 when the
requested value is ≤ 0, then, when the (now positive) value is not a power of
two, clear low bits until one remains and shift left.  The value after the
substitution is positive, so it is carried as a `Nat`; Python's `&` and `<<`
on nonnegative ints agree with the `Nat` operations. -/
def normalize_max_fields (v : Int) : Nat :=
  let maxfields : Nat := if v ≤ 0 then 512 else v.toNat
  if maxfields &&& (maxfields - 1) ≠ 0 then
    (clearLowAux maxfields maxfields) <<< 1
  else
    maxfields

/-- The network transport block of `cmake_args` (lines 200-223).  A `raise
InstallError` (lines 219, 222) is modelled as `Except.error` carrying the
message; the options appended before the raise are discarded because the
Python function aborts without returning its list. -/
def transportBlock (s : LegionSpec) : Except String (List String) :=
  match s.network with
  | Network.gasnet =>
      Except.ok (["-DLegion_NETWORKS=gasnetex"]
        ++ (if s.gasnet_root ≠ "none" then
              ["-DGASNet_ROOT_DIR=" ++ s.gasnet_root]
            else
              ["-DLegion_EMBED_GASNet=ON"])
        ++ ["-DGASNet_CONDUIT=" ++ conduitValue s.conduit]
        ++ (if s.gasnet_debug then
              ["-DLegion_EMBED_GASNet_CONFIGURE_ARGS=--enable-debug"]
            else
              []))
  | Network.mpi =>
      if s.gasnet_root ≠ "none" then
        Except.error "'gasnet_root' is only valid when 'network=gasnet'."
      else
        Except.ok ["-DLegion_NETWORKS=mpi"]
  | Network.nonet =>
      if s.gasnet_root ≠ "none" then
        Except.error "'gasnet_root' is only valid when 'network=gasnet'."
      else
        Except.ok ["-DLegion_EMBED_GASNet=OFF"]

/-- Python's `str.upper` at line 240, applied to the all-ASCII `output_level`
value: upper-case every character (structural map over the character list). -/
def strUpper (s : String) : String := String.mk (s.data.map Char.toUpper)

/-- The options appended after the transport block (lines 225-334), in source
order: the independent boolean feature blocks, the logging level (line 240
upper-cases the value), the CUDA block, the bindings block, the dimension and
field limits, and the `native` tuning flag. -/
def legion_rest_options (s : LegionSpec) : List String :=
  (if s.shared then ["-DBUILD_SHARED_LIBS=ON"] else ["-DBUILD_SHARED_LIBS=OFF"])
  ++ (if s.bounds_checks then ["-DLegion_BOUNDS_CHECKS=ON"] else [])
  ++ (if s.privilege_checks then ["-DLegion_PRIVILEGE_CHECKS=ON"] else [])
  ++ (if s.enable_tls then ["-DLegion_ENABLE_TLS=ON"] else [])
  ++ ["-DLegion_OUTPUT_LEVEL=" ++ strUpper (outputLevelValue s.output_level)]
  ++ (if s.spy then ["-DLegion_SPY=ON"] else [])
  ++ (if s.cuda then
        ["-DLegion_USE_CUDA=ON", "-DLegion_GPU_REDUCTIONS=ON",
         "-DLegion_CUDA_ARCH=" ++ cudaArchValue s.cuda_arch]
        ++ (if s.cuda_hijack then ["-DLegion_HIJACK_CUDART=ON"]
            else ["-DLegion_HIJACK_CUDART=OFF"])
        ++ (if s.cuda_unsupported_compiler then
              ["-DCUDA_NVCC_FLAGS:STRING=--allow-unsupported-compiler"]
            else [])
      else [])
  ++ (if s.fortran then ["-DLegion_USE_Fortran=ON"] else [])
  ++ (if s.hdf5 then ["-DLegion_USE_HDF5=ON"] else [])
  ++ (if s.hwloc then ["-DLegion_USE_HWLOC=ON"] else [])
  ++ (if s.kokkos then ["-DLegion_USE_Kokkos=ON"] else [])
  ++ (if s.libdl then ["-DLegion_USE_LIBDL=ON"] else ["-DLegion_USE_LIBDL=OFF"])
  ++ (if s.openmp then ["-DLegion_USE_OpenMP=ON"] else [])
  ++ (if s.papi then ["-DLegion_USE_PAPI=ON"] else [])
  ++ (if s.python then ["-DLegion_USE_Python=ON"] else [])
  ++ (if s.zlib then ["-DLegion_USE_ZLIB=ON"] else ["-DLegion_USE_ZLIB=OFF"])
  ++ (if s.redop_complex then ["-DLegion_REDOP_COMPLEX=ON"] else [])
  ++ (if s.bindings then
        ["-DLegion_BUILD_BINDINGS=ON", "-DLegion_REDOP_COMPLEX=ON",
         "-DLegion_USE_Fortran=ON"]
      else [])
  ++ ["-DLegion_MAX_DIM=" ++ toString s.max_dims]
  ++ ["-DLegion_MAX_FIELDS=" ++ toString (normalize_max_fields s.max_fields)]
  ++ (if s.native then ["-DBUILD_MARCH:STRING=native"] else [])

/-- Everything `cmake_args` produces: the returned option list (or the raised
`InstallError` message), the separately tracked `cmake_cxx_flags` list (lines
197, 310-315; never merged into the returned list), and the `os.environ`
writes (line 274). -/
structure TransOutcome where
  result : Except String (List String)
  cmake_cxx_flags : List String
  env_writes : List (String × String)
deriving DecidableEq, Repr

/-- The `cmake_args` method (lines 195-336).  When the transport block raises
(lines 219, 222), control never reaches the debug-flag extension (line 311)
nor the environment write (line 274), so both collections are empty in the
error case. -/
def cmake_args (s : LegionSpec) : TransOutcome :=
  match transportBlock s with
  | Except.error e => ⟨Except.error e, [], []⟩
  | Except.ok net =>
      ⟨Except.ok (net ++ legion_rest_options s),
       if s.build_type = "Debug" then ["-DDEBUG_REALM", "-DDEBUG_LEGION", "-ggdb"] else [],
       if s.kokkos then [("KOKKOS_CXX_COMPILER", s.kokkos_cxx)] else []⟩

/-- The two error kinds of a translation: a `ConflictError` from a Phase-1
declared conflict rule, or the `InstallError` raised inside `cmake_args`. -/
inductive LegionError where
  | conflict (msg : String)
  | install (msg : String)
deriving DecidableEq, Repr

/-- A full translation: the framework evaluates the declared conflict rules
first (fail-fast, no flags), then runs `cmake_args` and forwards its returned
option list. -/
def legion_translate (s : LegionSpec) : Except LegionError (List String) :=
  match checkConflicts s with
  | some msg => Except.error (LegionError.conflict msg)
  | none =>
      match (cmake_args s).result with
      | Except.error msg => Except.error (LegionError.install msg)
      | Except.ok opts => Except.ok opts

/-- Environment writes performed by a full translation: none when the Phase-1
gate rejects the spec (`cmake_args` never runs), otherwise those of
`cmake_args`. -/
def legion_translate_env (s : LegionSpec) : List (String × String) :=
  match checkConflicts s with
  | some _ => []
  | none => (cmake_args s).env_writes

/-- The flag list of a successful translation (empty on failure). -/
def translationFlags (s : LegionSpec) : List String :=
  match legion_translate s with
  | Except.ok opts => opts
  | Except.error _ => []

theorem testBit_of_pow_le_of_lt {n k : Nat} (h1 : 2 ^ k ≤ n) (h2 : n < 2 ^ (k + 1)) :
    n.testBit k = true := by
  have hdiv : n / 2 ^ k = 1 := by
    refine Nat.div_eq_of_lt_le (by omega) ?_
    rw [Nat.pow_succ] at h2
    omega
  rw [Nat.testBit_to_div_mod, hdiv]
  rfl

theorem two_pow_and_pred (k : Nat) : 2 ^ k &&& (2 ^ k - 1) = 0 := by
  apply Nat.eq_of_testBit_eq
  intro i
  rw [Nat.testBit_and, Nat.testBit_two_pow, Nat.testBit_two_pow_sub_one, Nat.zero_testBit]
  by_cases h : k = i
  · subst h
    simp
  · simp [h]

theorem and_pred_eq_zero_iff {n : Nat} (hpos : 0 < n) :
    n &&& (n - 1) = 0 ↔ ∃ k : Nat, n = 2 ^ k := by
  constructor
  · intro hz
    refine ⟨Nat.log 2 n, ?_⟩
    by_contra hne
    have hle : 2 ^ Nat.log 2 n ≤ n := Nat.pow_log_le_self 2 (by omega)
    have hlt : n < 2 ^ (Nat.log 2 n + 1) := Nat.lt_pow_succ_log_self (by omega) n
    have t1 : n.testBit (Nat.log 2 n) = true := testBit_of_pow_le_of_lt hle hlt
    have t2 : (n - 1).testBit (Nat.log 2 n) = true :=
      testBit_of_pow_le_of_lt (by omega) (by omega)
    have hb : (n &&& (n - 1)).testBit (Nat.log 2 n) = true := by
      rw [Nat.testBit_and, t1, t2]
      rfl
    rw [hz, Nat.zero_testBit] at hb
    exact Bool.false_ne_true hb
  · rintro ⟨k, rfl⟩
    exact two_pow_and_pred k

theorem clearLowAux_eq : ∀ (f n : Nat), 0 < n → n ≤ f → clearLowAux f n = 2 ^ Nat.log 2 n := by
  intro f
  induction f with
  | zero => intro n h1 h2; omega
  | succ f ih =>
    intro n h1 h2
    by_cases hz : n &&& (n - 1) = 0
    · simp only [clearLowAux, hz, if_pos]
      obtain ⟨k, rfl⟩ := (and_pred_eq_zero_iff h1).mp hz
      rw [Nat.log_pow (by omega)]
    · simp only [clearLowAux, hz, if_neg, if_false]
      have hmlt : n &&& (n - 1) < n :=
        lt_of_le_of_lt (Nat.and_le_right) (by omega)
      have hmpos : 0 < (n &&& (n - 1)) := Nat.pos_of_ne_zero hz
      have hle : 2 ^ Nat.log 2 n ≤ n := Nat.pow_log_le_self 2 (by omega)
      have hlt : n < 2 ^ (Nat.log 2 n + 1) := Nat.lt_pow_succ_log_self (by omega) n
      have hne : n ≠ 2 ^ Nat.log 2 n := by
        intro he
        apply hz
        rw [he]
        exact two_pow_and_pred _
      have t1 : n.testBit (Nat.log 2 n) = true := testBit_of_pow_le_of_lt hle hlt
      have t2 : (n - 1).testBit (Nat.log 2 n) = true :=
        testBit_of_pow_le_of_lt (by omega) (by omega)
      have tm : (n &&& (n - 1)).testBit (Nat.log 2 n) = true := by
        rw [Nat.testBit_and, t1, t2]
        rfl
      have hml : 2 ^ Nat.log 2 n ≤ n &&& (n - 1) := Nat.testBit_implies_ge tm
      have hlog : Nat.log 2 (n &&& (n - 1)) = Nat.log 2 n :=
        Nat.log_eq_of_pow_le_of_lt_pow hml (lt_trans hmlt hlt)
      rw [ih (n &&& (n - 1)) hmpos (by omega), hlog]

/-- For a positive value that is already a power of two, the normalization is
the identity. -/
theorem normalize_max_fields_pow {v : Int} (k : Nat) (hk : v = 2 ^ k) :
    (normalize_max_fields v : Int) = v := by
  have hvpos : 0 < v := by
    rw [hk]
    positivity
  have hcast : ((2 ^ k : Nat) : Int) = 2 ^ k := by push_cast; ring
  have htn : v.toNat = 2 ^ k := by omega
  have hsub : (if v ≤ 0 then (512 : Nat) else v.toNat) = v.toNat := if_neg (not_le.mpr hvpos)
  simp only [normalize_max_fields]
  rw [hsub, htn]
  rw [if_neg (by simp [two_pow_and_pred k])]
  rw [hk]
  exact hcast

/-- For a nonpositive value, the normalization substitutes 512. -/
theorem normalize_max_fields_nonpos {v : Int} (hv : v ≤ 0) :
    normalize_max_fields v = 512 := by
  unfold normalize_max_fields
  simp only [if_pos hv]
  decide

/-- For a positive value that is not a power of two, the normalization yields
`2 ^ (Nat.log 2 v.toNat + 1)`, which lies strictly between the value and its
half. -/
theorem normalize_max_fields_not_pow {v : Int} (hvpos : 0 < v)
    (hnp : ∀ k : Nat, v ≠ 2 ^ k) :
    normalize_max_fields v = 2 ^ (Nat.log 2 v.toNat + 1)
    ∧ 2 ^ Nat.log 2 v.toNat < v.toNat ∧ v.toNat < 2 ^ (Nat.log 2 v.toNat + 1) := by
  have hnz : v.toNat ≠ 0 := by omega
  have hle : 2 ^ Nat.log 2 v.toNat ≤ v.toNat := Nat.pow_log_le_self 2 hnz
  have hlt : v.toNat < 2 ^ (Nat.log 2 v.toNat + 1) :=
    Nat.lt_pow_succ_log_self (by omega) v.toNat
  have hnppos : ∀ k : Nat, v.toNat ≠ 2 ^ k := by
    intro k hk
    apply hnp k
    have : ((2 ^ k : Nat) : Int) = 2 ^ k := by push_cast; ring
    omega
  have hand : v.toNat &&& (v.toNat - 1) ≠ 0 := by
    intro h0
    obtain ⟨k, hk⟩ := (and_pred_eq_zero_iff (by omega)).mp h0
    exact hnppos k hk
  have hstrict : 2 ^ Nat.log 2 v.toNat < v.toNat :=
    lt_of_le_of_ne hle (fun h => hnppos _ h.symm)
  refine ⟨?_, hstrict, hlt⟩
  have hsub : (if v ≤ 0 then (512 : Nat) else v.toNat) = v.toNat := if_neg (not_le.mpr hvpos)
  simp only [normalize_max_fields, hsub]
  rw [if_pos hand, clearLowAux_eq v.toNat v.toNat (by omega) (le_refl _), Nat.shiftLeft_eq]
  ring

/-- Decomposition of a successful translation: the conflict gate passed, the
transport block produced its options, and the returned list is the transport
options followed by the remaining blocks' options. -/
theorem translate_ok_elim {s : LegionSpec} {opts : List String}
    (h : legion_translate s = Except.ok opts) :
    ∃ net, transportBlock s = Except.ok net ∧ checkConflicts s = none
      ∧ opts = net ++ legion_rest_options s := by
  unfold legion_translate at h
  cases hc : checkConflicts s with
  | some m => rw [hc] at h; cases h
  | none =>
    rw [hc] at h
    unfold cmake_args at h
    cases ht : transportBlock s with
    | error e => rw [ht] at h; cases h
    | ok net =>
      rw [ht] at h
      refine ⟨net, rfl, rfl, ?_⟩
      injection h with h2
      exact h2.symm

/-- C1: for every integer value v of max_fields, the emitted field-limit flag
value equals 512 when v ≤ 0; v itself when v is a positive power of two; and
otherwise the unique power of two p with p/2 < v < p (in particular the
normalized value is what the `-DLegion_MAX_FIELDS` flag carries). -/
theorem max_fields_flag_value (v : Int) :
    (v ≤ 0 → normalize_max_fields v = 512)
    ∧ ((∃ k : Nat, v = 2 ^ k) → (normalize_max_fields v : Int) = v)
    ∧ (0 < v → (∀ k : Nat, v ≠ 2 ^ k) →
        (∃ k : Nat, normalize_max_fields v = 2 ^ k)
        ∧ ((normalize_max_fields v / 2 : Nat) : Int) < v
        ∧ v < (normalize_max_fields v : Int)
        ∧ (∀ p : Nat, (∃ k : Nat, p = 2 ^ k) → ((p / 2 : Nat) : Int) < v →
            v < (p : Int) → p = normalize_max_fields v))
    ∧ (∀ s : LegionSpec, ∀ opts : List String, legion_translate s = Except.ok opts →
        ("-DLegion_MAX_FIELDS=" ++ toString (normalize_max_fields s.max_fields)) ∈ opts) := by
  refine ⟨fun hv => normalize_max_fields_nonpos hv,
          fun ⟨k, hk⟩ => normalize_max_fields_pow k hk, ?_, ?_⟩
  · intro hvpos hnp
    obtain ⟨heq, hstrict, hlt⟩ := normalize_max_fields_not_pow hvpos hnp
    have hvn : (v.toNat : Int) = v := by omega
    have hdiv : normalize_max_fields v / 2 = 2 ^ Nat.log 2 v.toNat := by
      rw [heq, Nat.pow_succ]
      exact Nat.mul_div_cancel _ (by omega)
    refine ⟨⟨Nat.log 2 v.toNat + 1, heq⟩, ?_, ?_, ?_⟩
    · rw [hdiv]
      omega
    · rw [heq]
      have : (v.toNat : Int) < ((2 ^ (Nat.log 2 v.toNat + 1) : Nat) : Int) := by
        exact_mod_cast hlt
      omega
    · rintro p ⟨j, hj⟩ hlo hhi
      have hlo' : p / 2 < v.toNat := by omega
      have hhi' : v.toNat < p := by omega
      subst hj
      match j with
      | 0 => omega
      | m + 1 =>
        have hpd : 2 ^ (m + 1) / 2 = 2 ^ m := by
          rw [Nat.pow_succ]
          exact Nat.mul_div_cancel _ (by omega)
        rw [hpd] at hlo'
        have h1 : m < Nat.log 2 v.toNat + 1 :=
          (Nat.pow_lt_pow_iff_right (by omega)).mp (lt_trans hlo' hlt)
        have h2 : Nat.log 2 v.toNat < m + 1 :=
          (Nat.pow_lt_pow_iff_right (by omega)).mp (lt_trans hstrict hhi')
        have hm : m = Nat.log 2 v.toNat := by omega
        rw [heq, hm]
  · intro s opts hok
    obtain ⟨net, _, _, hopts⟩ := translate_ok_elim hok
    subst hopts
    simp [legion_rest_options]

/-- Witness for C1 at the concrete inputs 0, 64 and 100 (Scenario C/D: 100
normalizes to 128, 0 normalizes to 512), and for the flag emission at the
default spec. -/
theorem max_fields_flag_value_witness :
    normalize_max_fields 0 = 512
    ∧ (normalize_max_fields 64 : Int) = 64
    ∧ ((normalize_max_fields 100 / 2 : Nat) : Int) < 100
    ∧ (100 : Int) < (normalize_max_fields 100 : Int)
    ∧ (128 : Nat) = normalize_max_fields 100
    ∧ ("-DLegion_MAX_FIELDS=" ++ toString (normalize_max_fields defaultSpec.max_fields))
        ∈ translationFlags defaultSpec := by
  have h100 : ∀ k : Nat, (100 : Int) ≠ 2 ^ k := by
    intro k h
    have hc : ((2 ^ k : Nat) : Int) = 2 ^ k := by push_cast; ring
    have hn : (100 : Nat) = 2 ^ k := by omega
    rcases Nat.lt_or_ge k 7 with hk | hk
    · interval_cases k <;> norm_num at hn
    · have : 2 ^ 7 ≤ 2 ^ k := Nat.pow_le_pow_right (by omega) hk
      norm_num at this
      omega
  refine ⟨(max_fields_flag_value 0).1 (by norm_num),
          (max_fields_flag_value 64).2.1 ⟨6, by norm_num⟩,
          ((max_fields_flag_value 100).2.2.1 (by norm_num) h100).2.1,
          ((max_fields_flag_value 100).2.2.1 (by norm_num) h100).2.2.1,
          ((max_fields_flag_value 100).2.2.1 (by norm_num) h100).2.2.2 128 ⟨7, by norm_num⟩
            (by decide) (by decide),
          (max_fields_flag_value 512).2.2.2 defaultSpec (translationFlags defaultSpec)
            (by decide)⟩

/-- A string extending `a` differs from `t` whenever `a` and `t` differ at some
character position inside `a`. -/
theorem append_ne (a t : String) (i : Nat) (c : Char)
    (ha : a.data[i]? = some c) (ht : t.data[i]? ≠ some c) :
    ∀ b : String, a ++ b ≠ t := by
  intro b h
  apply ht
  rcases Nat.lt_or_ge i a.data.length with hlt | hge
  · rw [← h, String.data_append, List.getElem?_append_left hlt]
    exact ha
  · rw [List.getElem?_eq_none hge] at ha
    cases ha

/-- Strings extending `a` and `c` differ whenever `a` and `c` differ at some
character position inside both. -/
theorem append_ne_append (a c : String) (i : Nat) (x y : Char)
    (hx : a.data[i]? = some x) (hy : c.data[i]? = some y) (hxy : x ≠ y) :
    ∀ b d : String, a ++ b ≠ c ++ d := by
  intro b d h
  rcases Nat.lt_or_ge i a.data.length with hlt | hge
  · rcases Nat.lt_or_ge i c.data.length with hlt2 | hge2
    · have h1 : (a ++ b).data[i]? = some x := by
        rw [String.data_append, List.getElem?_append_left hlt]
        exact hx
      have h2 : (c ++ d).data[i]? = some y := by
        rw [String.data_append, List.getElem?_append_left hlt2]
        exact hy
      rw [h, h2] at h1
      exact hxy (Option.some.inj h1).symm
    · rw [List.getElem?_eq_none hge2] at hy
      cases hy
  · rw [List.getElem?_eq_none hge] at hx
    cases hx

/-- Occurrence count of `t` in the one-element list `[x]`, as a function. -/
def cnt (x t : String) : Nat := if x == t then 1 else 0

/-- Master count of an option string `t` over the post-transport blocks: one
summand per decision block of lines 225-334, provided `t` does not extend any
of the four interpolated option prefixes occurring there. -/
theorem count_rest_master (s : LegionSpec) (t : String)
    (hOL : ∀ b, "-DLegion_OUTPUT_LEVEL=" ++ b ≠ t)
    (hCA : ∀ b, "-DLegion_CUDA_ARCH=" ++ b ≠ t)
    (hMD : ∀ b, "-DLegion_MAX_DIM=" ++ b ≠ t)
    (hMF : ∀ b, "-DLegion_MAX_FIELDS=" ++ b ≠ t) :
    List.count t (legion_rest_options s) =
      (if s.shared then cnt "-DBUILD_SHARED_LIBS=ON" t else cnt "-DBUILD_SHARED_LIBS=OFF" t)
      + (if s.bounds_checks then cnt "-DLegion_BOUNDS_CHECKS=ON" t else 0)
      + (if s.privilege_checks then cnt "-DLegion_PRIVILEGE_CHECKS=ON" t else 0)
      + (if s.enable_tls then cnt "-DLegion_ENABLE_TLS=ON" t else 0)
      + (if s.spy then cnt "-DLegion_SPY=ON" t else 0)
      + (if s.cuda then
            cnt "-DLegion_GPU_REDUCTIONS=ON" t + cnt "-DLegion_USE_CUDA=ON" t
            + (if s.cuda_hijack then cnt "-DLegion_HIJACK_CUDART=ON" t
               else cnt "-DLegion_HIJACK_CUDART=OFF" t)
            + (if s.cuda_unsupported_compiler then
                 cnt "-DCUDA_NVCC_FLAGS:STRING=--allow-unsupported-compiler" t
               else 0)
          else 0)
      + (if s.fortran then cnt "-DLegion_USE_Fortran=ON" t else 0)
      + (if s.hdf5 then cnt "-DLegion_USE_HDF5=ON" t else 0)
      + (if s.hwloc then cnt "-DLegion_USE_HWLOC=ON" t else 0)
      + (if s.kokkos then cnt "-DLegion_USE_Kokkos=ON" t else 0)
      + (if s.libdl then cnt "-DLegion_USE_LIBDL=ON" t else cnt "-DLegion_USE_LIBDL=OFF" t)
      + (if s.openmp then cnt "-DLegion_USE_OpenMP=ON" t else 0)
      + (if s.papi then cnt "-DLegion_USE_PAPI=ON" t else 0)
      + (if s.python then cnt "-DLegion_USE_Python=ON" t else 0)
      + (if s.zlib then cnt "-DLegion_USE_ZLIB=ON" t else cnt "-DLegion_USE_ZLIB=OFF" t)
      + (if s.redop_complex then cnt "-DLegion_REDOP_COMPLEX=ON" t else 0)
      + (if s.bindings then
           cnt "-DLegion_USE_Fortran=ON" t + cnt "-DLegion_REDOP_COMPLEX=ON" t
           + cnt "-DLegion_BUILD_BINDINGS=ON" t
         else 0)
      + (if s.native then cnt "-DBUILD_MARCH:STRING=native" t else 0) := by
  simp only [legion_rest_options, List.count_append, apply_ite (List.count t),
    List.count_singleton, List.count_cons, List.count_nil, cnt, beq_iff_eq]
  simp only [hOL, hCA, hMD, hMF, if_false, Nat.zero_add, Nat.add_zero]

/-- Master count of an option string `t` over the transport-block options,
provided `t` does not extend the two interpolated prefixes occurring there. -/
theorem count_net_master {s : LegionSpec} {net : List String}
    (ht : transportBlock s = Except.ok net) (t : String)
    (hR : ∀ b, "-DGASNet_ROOT_DIR=" ++ b ≠ t)
    (hC : ∀ b, "-DGASNet_CONDUIT=" ++ b ≠ t) :
    List.count t net =
      if s.network = Network.gasnet then
        cnt "-DLegion_NETWORKS=gasnetex" t
        + (if s.gasnet_root ≠ "none" then 0 else cnt "-DLegion_EMBED_GASNet=ON" t)
        + (if s.gasnet_debug then cnt "-DLegion_EMBED_GASNet_CONFIGURE_ARGS=--enable-debug" t
           else 0)
      else if s.network = Network.mpi then cnt "-DLegion_NETWORKS=mpi" t
      else cnt "-DLegion_EMBED_GASNet=OFF" t := by
  unfold transportBlock at ht
  split at ht
  · rename_i hn
    injection ht with ht2
    subst ht2
    rw [hn]
    simp only [List.count_append, apply_ite (List.count t),
      List.count_singleton, List.count_cons, List.count_nil, cnt, beq_iff_eq]
    simp only [hR, hC, if_false, Nat.zero_add, Nat.add_zero]
    simp
  · rename_i hn
    split at ht
    · cases ht
    · injection ht with ht2
      subst ht2
      rw [hn]
      simp [cnt, List.count_singleton, beq_iff_eq]
  · rename_i hn
    split at ht
    · cases ht
    · injection ht with ht2
      subst ht2
      rw [hn]
      simp [cnt, List.count_singleton, beq_iff_eq]

/-- On a spec whose transport block succeeds, `cmake_args` returns the transport
options followed by the remaining options, the debug-conditional compiler
flags, and the kokkos-conditional environment write. -/
theorem cmake_args_ok {s : LegionSpec} {net : List String}
    (ht : transportBlock s = Except.ok net) :
    cmake_args s =
      ⟨Except.ok (net ++ legion_rest_options s),
       if s.build_type = "Debug" then ["-DDEBUG_REALM", "-DDEBUG_LEGION", "-ggdb"] else [],
       if s.kokkos then [("KOKKOS_CXX_COMPILER", s.kokkos_cxx)] else []⟩ := by
  unfold cmake_args
  rw [ht]

/-- Count of a non-interpolated option string over the whole returned option
list of a successful translation, as one closed arithmetic expression over the
spec's variant values. -/
theorem count_opts_eval {s : LegionSpec} {opts : List String}
    (hok : legion_translate s = Except.ok opts) (t : String)
    (h2 : t.data[2]? ≠ some 'G') (h9O : t.data[9]? ≠ some 'O')
    (h9C : t.data[9]? ≠ some 'C') (h9M : t.data[9]? ≠ some 'M') :
    List.count t opts =
      (if s.network = Network.gasnet then
        cnt "-DLegion_NETWORKS=gasnetex" t
        + (if s.gasnet_root ≠ "none" then 0 else cnt "-DLegion_EMBED_GASNet=ON" t)
        + (if s.gasnet_debug then cnt "-DLegion_EMBED_GASNet_CONFIGURE_ARGS=--enable-debug" t
           else 0)
      else if s.network = Network.mpi then cnt "-DLegion_NETWORKS=mpi" t
      else cnt "-DLegion_EMBED_GASNet=OFF" t)
      + ((if s.shared then cnt "-DBUILD_SHARED_LIBS=ON" t else cnt "-DBUILD_SHARED_LIBS=OFF" t)
      + (if s.bounds_checks then cnt "-DLegion_BOUNDS_CHECKS=ON" t else 0)
      + (if s.privilege_checks then cnt "-DLegion_PRIVILEGE_CHECKS=ON" t else 0)
      + (if s.enable_tls then cnt "-DLegion_ENABLE_TLS=ON" t else 0)
      + (if s.spy then cnt "-DLegion_SPY=ON" t else 0)
      + (if s.cuda then
            cnt "-DLegion_GPU_REDUCTIONS=ON" t + cnt "-DLegion_USE_CUDA=ON" t
            + (if s.cuda_hijack then cnt "-DLegion_HIJACK_CUDART=ON" t
               else cnt "-DLegion_HIJACK_CUDART=OFF" t)
            + (if s.cuda_unsupported_compiler then
                 cnt "-DCUDA_NVCC_FLAGS:STRING=--allow-unsupported-compiler" t
               else 0)
          else 0)
      + (if s.fortran then cnt "-DLegion_USE_Fortran=ON" t else 0)
      + (if s.hdf5 then cnt "-DLegion_USE_HDF5=ON" t else 0)
      + (if s.hwloc then cnt "-DLegion_USE_HWLOC=ON" t else 0)
      + (if s.kokkos then cnt "-DLegion_USE_Kokkos=ON" t else 0)
      + (if s.libdl then cnt "-DLegion_USE_LIBDL=ON" t else cnt "-DLegion_USE_LIBDL=OFF" t)
      + (if s.openmp then cnt "-DLegion_USE_OpenMP=ON" t else 0)
      + (if s.papi then cnt "-DLegion_USE_PAPI=ON" t else 0)
      + (if s.python then cnt "-DLegion_USE_Python=ON" t else 0)
      + (if s.zlib then cnt "-DLegion_USE_ZLIB=ON" t else cnt "-DLegion_USE_ZLIB=OFF" t)
      + (if s.redop_complex then cnt "-DLegion_REDOP_COMPLEX=ON" t else 0)
      + (if s.bindings then
           cnt "-DLegion_USE_Fortran=ON" t + cnt "-DLegion_REDOP_COMPLEX=ON" t
           + cnt "-DLegion_BUILD_BINDINGS=ON" t
         else 0)
      + (if s.native then cnt "-DBUILD_MARCH:STRING=native" t else 0)) := by
  obtain ⟨net, ht, hc, rfl⟩ := translate_ok_elim hok
  rw [List.count_append,
    count_net_master ht t (append_ne _ _ 2 'G' (by decide) h2)
      (append_ne _ _ 2 'G' (by decide) h2),
    count_rest_master s t (append_ne _ _ 9 'O' (by decide) h9O)
      (append_ne _ _ 9 'C' (by decide) h9C)
      (append_ne _ _ 9 'M' (by decide) h9M)
      (append_ne _ _ 9 'M' (by decide) h9M)]

/-- The literal (non-interpolated) option strings of the transport block. -/
def netLiterals : List String :=
  ["-DLegion_NETWORKS=gasnetex", "-DLegion_EMBED_GASNet=ON",
   "-DLegion_EMBED_GASNet_CONFIGURE_ARGS=--enable-debug",
   "-DLegion_NETWORKS=mpi", "-DLegion_EMBED_GASNet=OFF"]

/-- The literal (non-interpolated) option strings of the post-transport blocks. -/
def restLiterals : List String :=
  ["-DBUILD_SHARED_LIBS=ON", "-DBUILD_SHARED_LIBS=OFF", "-DLegion_BOUNDS_CHECKS=ON",
   "-DLegion_PRIVILEGE_CHECKS=ON", "-DLegion_ENABLE_TLS=ON", "-DLegion_SPY=ON",
   "-DLegion_USE_CUDA=ON", "-DLegion_GPU_REDUCTIONS=ON", "-DLegion_HIJACK_CUDART=ON",
   "-DLegion_HIJACK_CUDART=OFF", "-DCUDA_NVCC_FLAGS:STRING=--allow-unsupported-compiler",
   "-DLegion_USE_Fortran=ON", "-DLegion_USE_HDF5=ON", "-DLegion_USE_HWLOC=ON",
   "-DLegion_USE_Kokkos=ON", "-DLegion_USE_LIBDL=ON", "-DLegion_USE_LIBDL=OFF",
   "-DLegion_USE_OpenMP=ON", "-DLegion_USE_PAPI=ON", "-DLegion_USE_Python=ON",
   "-DLegion_USE_ZLIB=ON", "-DLegion_USE_ZLIB=OFF", "-DLegion_REDOP_COMPLEX=ON",
   "-DLegion_BUILD_BINDINGS=ON", "-DBUILD_MARCH:STRING=native"]

/-- Every member of a successful transport block's option list is either a
transport literal or one of the two interpolated transport options (these only
under `network=gasnet`, the root one only under a non-none root). -/
theorem mem_net_elim {s : LegionSpec} {net : List String} {x : String}
    (ht : transportBlock s = Except.ok net) (h : x ∈ net) :
    x ∈ netLiterals
    ∨ (s.network = Network.gasnet ∧ s.gasnet_root ≠ "none"
        ∧ x = "-DGASNet_ROOT_DIR=" ++ s.gasnet_root)
    ∨ (s.network = Network.gasnet ∧ x = "-DGASNet_CONDUIT=" ++ conduitValue s.conduit) := by
  simp only [netLiterals, List.mem_cons, List.not_mem_nil, or_false]
  unfold transportBlock at ht
  split at ht
  · rename_i hn
    injection ht with ht2
    subst ht2
    simp only [List.mem_append, List.mem_cons, List.not_mem_nil, or_false,
      apply_ite (fun l : List String => x ∈ l), ite_prop_iff_or] at h
    tauto
  · rename_i hn
    split at ht
    · cases ht
    · injection ht with ht2
      subst ht2
      simp only [List.mem_cons, List.not_mem_nil, or_false] at h
      tauto
  · rename_i hn
    split at ht
    · cases ht
    · injection ht with ht2
      subst ht2
      simp only [List.mem_cons, List.not_mem_nil, or_false] at h
      tauto

set_option maxHeartbeats 1000000 in
/-- Every member of the post-transport option list is either a literal or one
of the four interpolated options (the CUDA architecture one only when cuda is
enabled). -/
theorem mem_rest_elim {s : LegionSpec} {x : String} (h : x ∈ legion_rest_options s) :
    x ∈ restLiterals
    ∨ x = "-DLegion_OUTPUT_LEVEL=" ++ strUpper (outputLevelValue s.output_level)
    ∨ (s.cuda = true ∧ x = "-DLegion_CUDA_ARCH=" ++ cudaArchValue s.cuda_arch)
    ∨ x = "-DLegion_MAX_DIM=" ++ toString s.max_dims
    ∨ x = "-DLegion_MAX_FIELDS=" ++ toString (normalize_max_fields s.max_fields) := by
  simp only [restLiterals, List.mem_cons, List.not_mem_nil, or_false]
  simp only [legion_rest_options, List.mem_append, List.mem_cons, List.not_mem_nil, or_false,
    apply_ite (fun l : List String => x ∈ l), ite_prop_iff_or] at h
  tauto

/-- C2 counterexample: at `network=none` with `gasnet_root=/opt/gasnet` (all
other variants at default) the Phase-1 conflict gate passes — no declared rule
covers `gasnet_root` with `network=none` — and the failure is instead the
`InstallError` raised inside `cmake_args`, so the claim that a `ConflictError`
is raised by the Phase-1 gate is false at this input. -/
theorem gasnet_root_gate_counterexample :
    checkConflicts { defaultSpec with gasnet_root := "/opt/gasnet" } = none
    ∧ legion_translate { defaultSpec with gasnet_root := "/opt/gasnet" }
        = Except.error
            (LegionError.install "'gasnet_root' is only valid when 'network=gasnet'.") := by
  constructor
  · decide
  · decide

/-- C2 (amended): for every spec with `network=mpi` or `network=none` and a
`gasnet_root` other than "none", translation always fails and no flag list is
returned; for `network=mpi` the failure is a Phase-1 `ConflictError`, while for
`network=none` the declared rules do not cover `gasnet_root` and (when no other
declared rule fires) the failure is the `InstallError` raised inside
`cmake_args`. -/
theorem gasnet_root_requires_gasnet {s : LegionSpec}
    (hn : s.network = Network.mpi ∨ s.network = Network.nonet)
    (hr : s.gasnet_root ≠ "none") :
    (∀ opts : List String, legion_translate s ≠ Except.ok opts)
    ∧ (s.network = Network.mpi →
        legion_translate s
          = Except.error (LegionError.conflict "gasnet_root conflicts with network=mpi")) := by
  constructor
  · intro opts hok
    obtain ⟨net, ht, hc, _⟩ := translate_ok_elim hok
    unfold transportBlock at ht
    split at ht
    · rename_i hg
      rcases hn with hn | hn <;> rw [hn] at hg <;> cases hg
    · split at ht
      · cases ht
      · rename_i hroot
        exact hroot hr
    · split at ht
      · cases ht
      · rename_i hroot
        exact hroot hr
  · intro hmpi
    unfold legion_translate checkConflicts
    rw [if_pos ⟨hr, hmpi⟩]

/-- C2 witness: the amended theorem applied at `network=mpi`,
`gasnet_root=/opt/gasnet`, everything else default. -/
theorem gasnet_root_requires_gasnet_witness :
    legion_translate { defaultSpec with network := Network.mpi, gasnet_root := "/opt/gasnet" }
        ≠ Except.ok []
    ∧ legion_translate { defaultSpec with network := Network.mpi, gasnet_root := "/opt/gasnet" }
        = Except.error (LegionError.conflict "gasnet_root conflicts with network=mpi") := by
  exact ⟨(gasnet_root_requires_gasnet (Or.inl rfl) (by decide)).1 [],
         (gasnet_root_requires_gasnet (Or.inl rfl) (by decide)).2 rfl⟩

/-- C4: whenever `bindings=true` on a successful translation, the output
contains the bindings-enable flag and the `-DLegion_REDOP_COMPLEX=ON` and
`-DLegion_USE_Fortran=ON` flags, regardless of the `redop_complex` and
`fortran` variants' own values. -/
theorem bindings_force_flags {s : LegionSpec} {opts : List String}
    (hok : legion_translate s = Except.ok opts) (hb : s.bindings = true) :
    "-DLegion_BUILD_BINDINGS=ON" ∈ opts
    ∧ "-DLegion_REDOP_COMPLEX=ON" ∈ opts
    ∧ "-DLegion_USE_Fortran=ON" ∈ opts := by
  obtain ⟨net, ht, hc, rfl⟩ := translate_ok_elim hok
  refine ⟨?_, ?_, ?_⟩ <;>
    · rw [List.mem_append]
      right
      simp [legion_rest_options, hb]

/-- C4 witness: the theorem applied at the default spec with `bindings=true`
(and `redop_complex=false`, `fortran=false`, Scenario E). -/
theorem bindings_force_flags_witness :
    "-DLegion_BUILD_BINDINGS=ON" ∈ translationFlags { defaultSpec with bindings := true }
    ∧ "-DLegion_REDOP_COMPLEX=ON" ∈ translationFlags { defaultSpec with bindings := true }
    ∧ "-DLegion_USE_Fortran=ON" ∈ translationFlags { defaultSpec with bindings := true } :=
  @bindings_force_flags { defaultSpec with bindings := true }
    (translationFlags { defaultSpec with bindings := true }) (by decide) rfl

/-- C10: with `bindings=true` and `redop_complex=true` the string
`-DLegion_REDOP_COMPLEX=ON` occurs exactly twice in the returned list, and with
`bindings=true` and `fortran=true` the string `-DLegion_USE_Fortran=ON`
likewise occurs exactly twice: the bindings block appends its forced flags
without de-duplication. -/
theorem bindings_duplicate_flags {s : LegionSpec} {opts : List String}
    (hok : legion_translate s = Except.ok opts) (hb : s.bindings = true) :
    (s.redop_complex = true → List.count "-DLegion_REDOP_COMPLEX=ON" opts = 2)
    ∧ (s.fortran = true → List.count "-DLegion_USE_Fortran=ON" opts = 2) := by
  constructor
  · intro hr
    rw [count_opts_eval hok _ (by decide) (by decide) (by decide) (by decide)]
    simp [cnt, hb, hr]
  · intro hf
    rw [count_opts_eval hok _ (by decide) (by decide) (by decide) (by decide)]
    simp [cnt, hb, hf]

/-- C10 witness: the theorem applied at the default spec with `bindings`,
`redop_complex` and `fortran` all true. -/
theorem bindings_duplicate_flags_witness :
    List.count "-DLegion_REDOP_COMPLEX=ON"
        (translationFlags
          { defaultSpec with bindings := true, redop_complex := true, fortran := true }) = 2
    ∧ List.count "-DLegion_USE_Fortran=ON"
        (translationFlags
          { defaultSpec with bindings := true, redop_complex := true, fortran := true }) = 2 :=
  ⟨(@bindings_duplicate_flags
      { defaultSpec with bindings := true, redop_complex := true, fortran := true }
      (translationFlags
        { defaultSpec with bindings := true, redop_complex := true, fortran := true })
      (by decide) rfl).1 rfl,
   (@bindings_duplicate_flags
      { defaultSpec with bindings := true, redop_complex := true, fortran := true }
      (translationFlags
        { defaultSpec with bindings := true, redop_complex := true, fortran := true })
      (by decide) rfl).2 rfl⟩

/-- C3 counterexample: at the all-default spec the translation succeeds and
`bounds_checks` (false) contributes no flag at all — neither
`-DLegion_BOUNDS_CHECKS=ON` nor `-DLegion_BOUNDS_CHECKS=OFF` occurs — so the
claim that every boolean feature variant contributes its =OFF form when false
is false at this input. -/
theorem feature_flag_counterexample :
    (legion_translate defaultSpec).toOption.isSome = true
    ∧ List.count "-DLegion_BOUNDS_CHECKS=ON" (translationFlags defaultSpec) = 0
    ∧ List.count "-DLegion_BOUNDS_CHECKS=OFF" (translationFlags defaultSpec) = 0 := by
  refine ⟨by decide, by decide, by decide⟩

/-- C3 (amended): on every successful translation, each of `shared`, `libdl`,
`zlib` contributes exactly one flag (the =ON form when true, the =OFF form when
false).  Each of the other twelve boolean feature variants contributes its =ON
flag exactly once when true and no flag at all when false — no =OFF form of
theirs is ever emitted (`native`'s flag is `-DBUILD_MARCH:STRING=native`) —
except that the `fortran` and `redop_complex` =ON flags are appended a second
time by the bindings block when `bindings=true`. -/
theorem feature_flag_counts {s : LegionSpec} {opts : List String}
    (hok : legion_translate s = Except.ok opts) :
    List.count "-DBUILD_SHARED_LIBS=ON" opts = (if s.shared then 1 else 0)
    ∧ List.count "-DBUILD_SHARED_LIBS=OFF" opts = (if s.shared then 0 else 1)
    ∧ List.count "-DLegion_USE_LIBDL=ON" opts = (if s.libdl then 1 else 0)
    ∧ List.count "-DLegion_USE_LIBDL=OFF" opts = (if s.libdl then 0 else 1)
    ∧ List.count "-DLegion_USE_ZLIB=ON" opts = (if s.zlib then 1 else 0)
    ∧ List.count "-DLegion_USE_ZLIB=OFF" opts = (if s.zlib then 0 else 1)
    ∧ List.count "-DLegion_BOUNDS_CHECKS=ON" opts = (if s.bounds_checks then 1 else 0)
    ∧ List.count "-DLegion_BOUNDS_CHECKS=OFF" opts = 0
    ∧ List.count "-DLegion_PRIVILEGE_CHECKS=ON" opts = (if s.privilege_checks then 1 else 0)
    ∧ List.count "-DLegion_PRIVILEGE_CHECKS=OFF" opts = 0
    ∧ List.count "-DLegion_ENABLE_TLS=ON" opts = (if s.enable_tls then 1 else 0)
    ∧ List.count "-DLegion_ENABLE_TLS=OFF" opts = 0
    ∧ List.count "-DLegion_SPY=ON" opts = (if s.spy then 1 else 0)
    ∧ List.count "-DLegion_SPY=OFF" opts = 0
    ∧ List.count "-DLegion_USE_Fortran=ON" opts
        = (if s.fortran then 1 else 0) + (if s.bindings then 1 else 0)
    ∧ List.count "-DLegion_USE_Fortran=OFF" opts = 0
    ∧ List.count "-DLegion_USE_HDF5=ON" opts = (if s.hdf5 then 1 else 0)
    ∧ List.count "-DLegion_USE_HDF5=OFF" opts = 0
    ∧ List.count "-DLegion_USE_HWLOC=ON" opts = (if s.hwloc then 1 else 0)
    ∧ List.count "-DLegion_USE_HWLOC=OFF" opts = 0
    ∧ List.count "-DLegion_USE_OpenMP=ON" opts = (if s.openmp then 1 else 0)
    ∧ List.count "-DLegion_USE_OpenMP=OFF" opts = 0
    ∧ List.count "-DLegion_USE_PAPI=ON" opts = (if s.papi then 1 else 0)
    ∧ List.count "-DLegion_USE_PAPI=OFF" opts = 0
    ∧ List.count "-DLegion_USE_Python=ON" opts = (if s.python then 1 else 0)
    ∧ List.count "-DLegion_USE_Python=OFF" opts = 0
    ∧ List.count "-DLegion_REDOP_COMPLEX=ON" opts
        = (if s.redop_complex then 1 else 0) + (if s.bindings then 1 else 0)
    ∧ List.count "-DLegion_REDOP_COMPLEX=OFF" opts = 0
    ∧ List.count "-DBUILD_MARCH:STRING=native" opts = (if s.native then 1 else 0) := by
  refine ⟨?_, ?_, ?_, ?_, ?_, ?_, ?_, ?_, ?_, ?_, ?_, ?_, ?_, ?_, ?_, ?_, ?_, ?_, ?_, ?_,
    ?_, ?_, ?_, ?_, ?_, ?_, ?_, ?_, ?_⟩ <;>
    · rw [count_opts_eval hok _ (by decide) (by decide) (by decide) (by decide)]
      simp [cnt]

/-- C3 witness: the amended theorem applied at the all-default spec (`libdl`
and `zlib` default true, the rest false). -/
theorem feature_flag_counts_witness :
    List.count "-DBUILD_SHARED_LIBS=OFF" (translationFlags defaultSpec) = 1
    ∧ List.count "-DLegion_USE_LIBDL=ON" (translationFlags defaultSpec) = 1
    ∧ List.count "-DLegion_USE_ZLIB=ON" (translationFlags defaultSpec) = 1 := by
  have h : legion_translate defaultSpec = Except.ok (translationFlags defaultSpec) := by decide
  exact ⟨(feature_flag_counts h).2.1, (feature_flag_counts h).2.2.1,
         (feature_flag_counts h).2.2.2.2.1⟩

/-- A character of the left factor of an append is a character of the append. -/
theorem data_getElem_append {a : String} (b : String) {i : Nat} {c : Char}
    (ha : a.data[i]? = some c) : (a ++ b).data[i]? = some c := by
  rcases Nat.lt_or_ge i a.data.length with hlt | hge
  · rw [String.data_append, List.getElem?_append_left hlt]
    exact ha
  · rw [List.getElem?_eq_none hge] at ha
    cases ha

/-- A string showing characters `c` at position `i` and `d` at position `j` is
not a member of a list of strings each of which differs at one of the two
positions. -/
theorem not_mem_of_two_marks {x : String} {i j : Nat} {c d : Char}
    (hx1 : x.data[i]? = some c) (hx2 : x.data[j]? = some d) :
    ∀ l : List String,
      (l.all fun y => !(y.data[i]? == some c) || !(y.data[j]? == some d)) = true →
      x ∉ l := by
  intro l hl hmem
  have hy := List.all_eq_true.mp hl x hmem
  rw [hx1, hx2] at hy
  simp at hy

/-- C5: on every successful translation with `network=gasnet`, the output
contains the transport-select flag `-DLegion_NETWORKS=gasnetex` and the conduit
flag for the chosen conduit; when `gasnet_root` is not "none" it contains the
root-path flag pointing at that directory and no embed flag, and when
`gasnet_root` is "none" it contains the embed flag and no root-path flag. -/
theorem gasnet_network_flags {s : LegionSpec} {opts : List String}
    (hok : legion_translate s = Except.ok opts) (hg : s.network = Network.gasnet) :
    "-DLegion_NETWORKS=gasnetex" ∈ opts
    ∧ ("-DGASNet_CONDUIT=" ++ conduitValue s.conduit) ∈ opts
    ∧ (s.gasnet_root ≠ "none" →
        ("-DGASNet_ROOT_DIR=" ++ s.gasnet_root) ∈ opts
        ∧ "-DLegion_EMBED_GASNet=ON" ∉ opts)
    ∧ (s.gasnet_root = "none" →
        "-DLegion_EMBED_GASNet=ON" ∈ opts
        ∧ ∀ r : String, ("-DGASNet_ROOT_DIR=" ++ r) ∉ opts) := by
  obtain ⟨net, ht, hc, rfl⟩ := translate_ok_elim hok
  have htb := ht
  unfold transportBlock at htb
  rw [hg] at htb
  injection htb with hnet
  refine ⟨?_, ?_, ?_, ?_⟩
  · rw [List.mem_append, ← hnet]
    left
    simp
  · rw [List.mem_append, ← hnet]
    left
    simp
  · intro hrne
    constructor
    · rw [List.mem_append, ← hnet]
      left
      simp [hrne]
    · apply List.count_eq_zero.mp
      rw [count_opts_eval hok _ (by decide) (by decide) (by decide) (by decide), hg]
      simp [cnt, hrne]
  · intro hrn
    constructor
    · rw [List.mem_append, ← hnet]
      left
      simp [hrn]
    · intro r hmem
      have k1 := append_ne "-DGASNet_ROOT_DIR=" "-DLegion_NETWORKS=gasnetex" 2 'G'
        (by decide) (by decide)
      have k2 := append_ne "-DGASNet_ROOT_DIR=" "-DLegion_EMBED_GASNet=ON" 2 'G'
        (by decide) (by decide)
      have k3 := append_ne "-DGASNet_ROOT_DIR=" "-DLegion_EMBED_GASNet_CONFIGURE_ARGS=--enable-debug"
        2 'G' (by decide) (by decide)
      have kc := append_ne_append "-DGASNet_ROOT_DIR=" "-DGASNet_CONDUIT=" 9 'R' 'C'
        (by decide) (by decide) (by decide)
      rcases List.mem_append.mp hmem with hm | hm
      · rw [← hnet] at hm
        simp [hrn, k1, k2, k3, kc] at hm
      · have hroot2 : ("-DGASNet_ROOT_DIR=" ++ r).data[2]? = some 'G' :=
          data_getElem_append r (by decide)
        rcases mem_rest_elim hm with hl | hl | hl | hl | hl
        · exact not_mem_of_two_marks hroot2 hroot2 restLiterals (by decide) hl
        · exact append_ne_append "-DGASNet_ROOT_DIR=" "-DLegion_OUTPUT_LEVEL=" 2 'G' 'L'
            (by decide) (by decide) (by decide) r _ hl
        · exact append_ne_append "-DGASNet_ROOT_DIR=" "-DLegion_CUDA_ARCH=" 2 'G' 'L'
            (by decide) (by decide) (by decide) r _ hl.2
        · exact append_ne_append "-DGASNet_ROOT_DIR=" "-DLegion_MAX_DIM=" 2 'G' 'L'
            (by decide) (by decide) (by decide) r _ hl
        · exact append_ne_append "-DGASNet_ROOT_DIR=" "-DLegion_MAX_FIELDS=" 2 'G' 'L'
            (by decide) (by decide) (by decide) r _ hl

/-- Scenario A of the spec: `network=gasnet, gasnet_root=none, conduit=ibv`. -/
def scenarioA : LegionSpec :=
  { defaultSpec with network := Network.gasnet, conduit := Conduit.ibv }

/-- Scenario B of the spec: `network=gasnet, gasnet_root=/opt/gasnet, conduit=udp`. -/
def scenarioB : LegionSpec :=
  { defaultSpec with
      network := Network.gasnet, conduit := Conduit.udp, gasnet_root := "/opt/gasnet" }

/-- C5 witness: Scenario A (`network=gasnet, gasnet_root=none, conduit=ibv`)
and Scenario B (`network=gasnet, gasnet_root=/opt/gasnet, conduit=udp`). -/
theorem gasnet_network_flags_witness :
    ("-DLegion_NETWORKS=gasnetex" ∈ translationFlags scenarioA
      ∧ ("-DGASNet_CONDUIT=" ++ "ibv") ∈ translationFlags scenarioA
      ∧ "-DLegion_EMBED_GASNet=ON" ∈ translationFlags scenarioA
      ∧ ("-DGASNet_ROOT_DIR=" ++ "/opt/gasnet") ∉ translationFlags scenarioA)
    ∧ (("-DGASNet_ROOT_DIR=" ++ "/opt/gasnet") ∈ translationFlags scenarioB
      ∧ ("-DGASNet_CONDUIT=" ++ "udp") ∈ translationFlags scenarioB
      ∧ "-DLegion_EMBED_GASNet=ON" ∉ translationFlags scenarioB) := by
  have hA := @gasnet_network_flags scenarioA (translationFlags scenarioA) (by decide) rfl
  have hB := @gasnet_network_flags scenarioB (translationFlags scenarioB) (by decide) rfl
  exact ⟨⟨hA.1, hA.2.1, (hA.2.2.2 rfl).1, (hA.2.2.2 rfl).2 "/opt/gasnet"⟩,
         ⟨(hB.2.2.1 (by decide)).1, hB.2.1, (hB.2.2.1 (by decide)).2⟩⟩

/-- C6: on every successful translation with `cuda=true` the output contains
`-DLegion_USE_CUDA=ON`, `-DLegion_GPU_REDUCTIONS=ON` and the architecture flag
for the chosen `cuda_arch`, and contains exactly one hijack flag, `=ON` iff
`cuda_hijack` is true; with `cuda=false` none of these flags appear. -/
theorem cuda_flags {s : LegionSpec} {opts : List String}
    (hok : legion_translate s = Except.ok opts) :
    (s.cuda = true →
      "-DLegion_USE_CUDA=ON" ∈ opts
      ∧ "-DLegion_GPU_REDUCTIONS=ON" ∈ opts
      ∧ ("-DLegion_CUDA_ARCH=" ++ cudaArchValue s.cuda_arch) ∈ opts
      ∧ List.count "-DLegion_HIJACK_CUDART=ON" opts = (if s.cuda_hijack then 1 else 0)
      ∧ List.count "-DLegion_HIJACK_CUDART=OFF" opts = (if s.cuda_hijack then 0 else 1))
    ∧ (s.cuda = false →
      "-DLegion_USE_CUDA=ON" ∉ opts
      ∧ "-DLegion_GPU_REDUCTIONS=ON" ∉ opts
      ∧ (∀ a : String, ("-DLegion_CUDA_ARCH=" ++ a) ∉ opts)
      ∧ "-DLegion_HIJACK_CUDART=ON" ∉ opts
      ∧ "-DLegion_HIJACK_CUDART=OFF" ∉ opts) := by
  obtain ⟨net, ht, hc, rfl⟩ := translate_ok_elim hok
  constructor
  · intro hcu
    refine ⟨?_, ?_, ?_, ?_, ?_⟩
    · rw [List.mem_append]
      right
      simp [legion_rest_options, hcu]
    · rw [List.mem_append]
      right
      simp [legion_rest_options, hcu]
    · rw [List.mem_append]
      right
      simp [legion_rest_options, hcu]
    · rw [count_opts_eval hok _ (by decide) (by decide) (by decide) (by decide)]
      simp [cnt, hcu]
    · rw [count_opts_eval hok _ (by decide) (by decide) (by decide) (by decide)]
      simp [cnt, hcu]
  · intro hcu
    refine ⟨?_, ?_, ?_, ?_, ?_⟩
    · apply List.count_eq_zero.mp
      rw [count_opts_eval hok _ (by decide) (by decide) (by decide) (by decide)]
      simp [cnt, hcu]
    · apply List.count_eq_zero.mp
      rw [count_opts_eval hok _ (by decide) (by decide) (by decide) (by decide)]
      simp [cnt, hcu]
    · intro a hmem
      have hx2 : ("-DLegion_CUDA_ARCH=" ++ a).data[2]? = some 'L' :=
        data_getElem_append a (by decide)
      have hx9 : ("-DLegion_CUDA_ARCH=" ++ a).data[9]? = some 'C' :=
        data_getElem_append a (by decide)
      rcases List.mem_append.mp hmem with hm | hm
      · rcases mem_net_elim ht hm with hl | hl | hl
        · exact not_mem_of_two_marks hx2 hx9 netLiterals (by decide) hl
        · exact append_ne_append "-DLegion_CUDA_ARCH=" "-DGASNet_ROOT_DIR=" 2 'L' 'G'
            (by decide) (by decide) (by decide) a _ hl.2.2
        · exact append_ne_append "-DLegion_CUDA_ARCH=" "-DGASNet_CONDUIT=" 2 'L' 'G'
            (by decide) (by decide) (by decide) a _ hl.2
      · rcases mem_rest_elim hm with hl | hl | hl | hl | hl
        · exact not_mem_of_two_marks hx2 hx9 restLiterals (by decide) hl
        · exact append_ne_append "-DLegion_CUDA_ARCH=" "-DLegion_OUTPUT_LEVEL=" 9 'C' 'O'
            (by decide) (by decide) (by decide) a _ hl
        · rw [hl.1] at hcu
          cases hcu
        · exact append_ne_append "-DLegion_CUDA_ARCH=" "-DLegion_MAX_DIM=" 9 'C' 'M'
            (by decide) (by decide) (by decide) a _ hl
        · exact append_ne_append "-DLegion_CUDA_ARCH=" "-DLegion_MAX_FIELDS=" 9 'C' 'M'
            (by decide) (by decide) (by decide) a _ hl
    · apply List.count_eq_zero.mp
      rw [count_opts_eval hok _ (by decide) (by decide) (by decide) (by decide)]
      simp [cnt, hcu]
    · apply List.count_eq_zero.mp
      rw [count_opts_eval hok _ (by decide) (by decide) (by decide) (by decide)]
      simp [cnt, hcu]

/-- Scenario F of the spec: `cuda=true, cuda_hijack=false, cuda_arch=80`. -/
def scenarioF : LegionSpec :=
  { defaultSpec with cuda := true, cuda_arch := CudaArch.a80 }

/-- C6 witness: Scenario F (`cuda=true, cuda_hijack=false, cuda_arch=80`), and
the disabled case at the all-default spec. -/
theorem cuda_flags_witness :
    ("-DLegion_USE_CUDA=ON" ∈ translationFlags scenarioF
      ∧ ("-DLegion_CUDA_ARCH=" ++ "80") ∈ translationFlags scenarioF
      ∧ List.count "-DLegion_HIJACK_CUDART=OFF" (translationFlags scenarioF) = 1)
    ∧ "-DLegion_USE_CUDA=ON" ∉ translationFlags defaultSpec := by
  have hF := @cuda_flags scenarioF (translationFlags scenarioF) (by decide)
  have hD := @cuda_flags defaultSpec (translationFlags defaultSpec) (by decide)
  exact ⟨⟨(hF.1 rfl).1, (hF.1 rfl).2.2.1, (hF.1 rfl).2.2.2.2⟩, (hD.2 rfl).1⟩

/-- C7: when the inherited `build_type` is "Debug", exactly the three strings
`-DDEBUG_REALM`, `-DDEBUG_LEGION`, `-ggdb` are placed in the separate
`cmake_cxx_flags` collection (and nothing otherwise), and the returned option
list of a successful translation never contains any of the three. -/
theorem debug_cxx_flags {s : LegionSpec} {opts : List String}
    (hok : legion_translate s = Except.ok opts) :
    (s.build_type = "Debug" →
        (cmake_args s).cmake_cxx_flags = ["-DDEBUG_REALM", "-DDEBUG_LEGION", "-ggdb"])
    ∧ (s.build_type ≠ "Debug" → (cmake_args s).cmake_cxx_flags = [])
    ∧ "-DDEBUG_REALM" ∉ opts
    ∧ "-DDEBUG_LEGION" ∉ opts
    ∧ "-ggdb" ∉ opts := by
  obtain ⟨net, ht, hc, hopts⟩ := translate_ok_elim hok
  refine ⟨?_, ?_, ?_, ?_, ?_⟩
  · intro hd
    rw [cmake_args_ok ht]
    simp [hd]
  · intro hd
    rw [cmake_args_ok ht]
    simp [hd]
  · apply List.count_eq_zero.mp
    rw [count_opts_eval hok _ (by decide) (by decide) (by decide) (by decide)]
    simp [cnt]
  · apply List.count_eq_zero.mp
    rw [count_opts_eval hok _ (by decide) (by decide) (by decide) (by decide)]
    simp [cnt]
  · apply List.count_eq_zero.mp
    rw [count_opts_eval hok _ (by decide) (by decide) (by decide) (by decide)]
    simp [cnt]

/-- C7 witness: the theorem applied at the default spec with
`build_type="Debug"`. -/
theorem debug_cxx_flags_witness :
    (cmake_args { defaultSpec with build_type := "Debug" }).cmake_cxx_flags
        = ["-DDEBUG_REALM", "-DDEBUG_LEGION", "-ggdb"]
    ∧ "-DDEBUG_REALM" ∉ translationFlags { defaultSpec with build_type := "Debug" } := by
  have h := @debug_cxx_flags { defaultSpec with build_type := "Debug" }
    (translationFlags { defaultSpec with build_type := "Debug" }) (by decide)
  exact ⟨h.1 rfl, h.2.2.1⟩

/-- C8: the translation's environment writes: none at all when the translation
ends in an error (in particular the write never precedes validation), and, on
success, exactly the single `KOKKOS_CXX_COMPILER` write when `kokkos` is
enabled and none when it is disabled. -/
theorem kokkos_env_write (s : LegionSpec) :
    ((∃ e, legion_translate s = Except.error e) → legion_translate_env s = [])
    ∧ (∀ opts, legion_translate s = Except.ok opts →
        legion_translate_env s
          = if s.kokkos then [("KOKKOS_CXX_COMPILER", s.kokkos_cxx)] else []) := by
  constructor
  · rintro ⟨e, he⟩
    unfold legion_translate_env
    cases hcc : checkConflicts s with
    | some m => rfl
    | none =>
      cases htb : transportBlock s with
      | error msg =>
        unfold cmake_args
        rw [htb]
      | ok net =>
        exfalso
        unfold legion_translate at he
        rw [hcc, cmake_args_ok htb] at he
        cases he
  · intro opts hok
    obtain ⟨net, htb, hcc, _⟩ := translate_ok_elim hok
    unfold legion_translate_env
    rw [hcc, cmake_args_ok htb]

/-- C8 witness: an erroring translation with `kokkos=true` performs no write;
a successful one with `kokkos=true` performs exactly the one write. -/
theorem kokkos_env_write_witness :
    legion_translate_env { defaultSpec with gasnet_root := "/x", kokkos := true } = []
    ∧ legion_translate_env { defaultSpec with kokkos := true, kokkos_cxx := "/usr/bin/g++" }
        = [("KOKKOS_CXX_COMPILER", "/usr/bin/g++")] := by
  refine ⟨(kokkos_env_write _).1
      ⟨LegionError.install "'gasnet_root' is only valid when 'network=gasnet'.", by decide⟩, ?_⟩
  exact (kokkos_env_write
    { defaultSpec with kokkos := true, kokkos_cxx := "/usr/bin/g++" }).2
    (translationFlags { defaultSpec with kokkos := true, kokkos_cxx := "/usr/bin/g++" })
    (by decide)

/-- Converse decomposition: a passing conflict gate and a successful transport
block yield the successful translation with its options. -/
theorem translate_ok_intro {s : LegionSpec} {net : List String}
    (hc : checkConflicts s = none) (ht : transportBlock s = Except.ok net) :
    legion_translate s = Except.ok (net ++ legion_rest_options s) := by
  unfold legion_translate
  rw [hc]
  unfold cmake_args
  rw [ht]

/-- A translation succeeds exactly when the conflict gate passes and the
transport block does not raise. -/
theorem translate_isSome_iff (w : LegionSpec) :
    (legion_translate w).toOption.isSome = true
      ↔ (checkConflicts w = none ∧ ∃ net, transportBlock w = Except.ok net) := by
  constructor
  · intro h
    cases hw : legion_translate w with
    | error e =>
      rw [hw] at h
      simp [Except.toOption] at h
    | ok opts =>
      obtain ⟨net, ht, hc, _⟩ := translate_ok_elim hw
      exact ⟨hc, net, ht⟩
  · rintro ⟨hc, net, ht⟩
    rw [translate_ok_intro hc ht]
    rfl

/-- C9: the `-DLegion_MAX_DIM` flag carries the requested `max_dims` value
verbatim on every successful translation, and whether a translation succeeds
never depends on the `max_dims` value (no bound is enforced, no clamping). -/
theorem max_dims_flag (s : LegionSpec) (v : Int) :
    (legion_translate { s with max_dims := v }).toOption.isSome
      = (legion_translate s).toOption.isSome
    ∧ (∀ opts, legion_translate s = Except.ok opts →
        ("-DLegion_MAX_DIM=" ++ toString s.max_dims) ∈ opts) := by
  constructor
  · have hcc : checkConflicts { s with max_dims := v } = checkConflicts s := rfl
    have htb : transportBlock { s with max_dims := v } = transportBlock s := rfl
    have h1 := translate_isSome_iff { s with max_dims := v }
    have h2 := translate_isSome_iff s
    rw [hcc] at h1
    simp only [htb] at h1
    have hAB := h1.trans h2.symm
    cases hA : (legion_translate { s with max_dims := v }).toOption.isSome <;>
      cases hB : (legion_translate s).toOption.isSome <;> simp_all
  · intro opts hok
    obtain ⟨net, ht, hc, rfl⟩ := translate_ok_elim hok
    rw [List.mem_append]
    right
    simp [legion_rest_options]

/-- C9 witness: the theorem applied at the default spec with the (out of any
sensible range) value -5: success is unaffected and the flag is verbatim. -/
theorem max_dims_flag_witness :
    (legion_translate { defaultSpec with max_dims := -5 }).toOption.isSome
      = (legion_translate defaultSpec).toOption.isSome
    ∧ ("-DLegion_MAX_DIM=" ++ toString (-5 : Int))
        ∈ translationFlags { defaultSpec with max_dims := -5 }
    ∧ (legion_translate { defaultSpec with max_dims := -5 }).toOption.isSome = true := by
  refine ⟨(max_dims_flag defaultSpec (-5)).1, ?_, by decide⟩
  exact (max_dims_flag { defaultSpec with max_dims := -5 } 0).2
    (translationFlags { defaultSpec with max_dims := -5 }) (by decide)

example : normalize_max_fields 100 = 128 := by decide
example : normalize_max_fields 0 = 512 := by decide
example : normalize_max_fields 512 = 512 := by decide
example : normalize_max_fields (-7) = 512 := by decide
example : normalize_max_fields 1 = 1 := by decide
example : normalize_max_fields 3 = 4 := by decide
example : (legion_translate defaultSpec).toOption.isSome = true := by decide
example :
    legion_translate { defaultSpec with gasnet_root := "/opt/gasnet" }
      = Except.error (LegionError.install "'gasnet_root' is only valid when 'network=gasnet'.") := by
  decide

end Legion
